import Mathlib

/-!
Shallow embedding of the object-API layer of an OSS (Aliyun-style object
storage) Rust client SDK: the bucket-listing XML decoder and operation
`list_object`, the status-gated `get_object` operation, the ACL fetcher
`get_object_acl` (src/object.rs), and the header-map conversion
`to_headers` (src/utils.rs).

XML is consumed in the source through a streaming token reader (the
quick_xml crate, external to the repository): `read_event` yields start
tags, end tags, text and decode errors, and `read_text name` consumes the
text content up to the matching end tag.  Response bodies are therefore
modelled at the token level as a `List XmlToken`, where the end of the
list plays the role of the `Eof` event.  Leaf elements of the listing
schema carry plain text, so `read_text` is modelled for text-only
content; a mismatched or truncated element is a decode error of the
token reader, returned through the `?` operator as in the source.

The crate error enumeration lives in the crate's `errors.rs`, outside
the embedded files; only the variants reachable from the embedded
functions are modelled, reconstructed from their construction and
`?`-conversion sites.  A Rust `panic!` or a failing `.unwrap()` aborts
the process; that outcome is represented explicitly by `Outcome.panic`,
distinct from a returned `Err` (`Outcome.err`).
-/

/-- One event of the quick_xml token reader: a start tag, an end tag, a
text node, or a decode error reported by the reader (`Event::Eof` is the
end of the token list). -/
inductive XmlToken where
  | start (name : String)
  | endTag (name : String)
  | text (s : String)
  | err
  deriving Repr, DecidableEq

/-- Errors of the object layer constructed in `src/object.rs`
(`ObjectError::GetError { msg }` at the status check of `get_object`). -/
inductive ObjectError where
  | GetError (msg : String)
  deriving Repr, DecidableEq

/-- The crate error type (defined in the crate's `errors.rs`): wrapped
object errors, the header-name/value conversion failures propagated by
`to_headers`, a decode error of the XML token reader propagated with `?`
(`Qxml`), and a `String::from_utf8` failure (`FromUtf8`). -/
inductive OSSError where
  | Object (e : ObjectError)
  | InvalidHeaderName
  | InvalidHeaderValue
  | Qxml
  | FromUtf8
  deriving Repr, DecidableEq

/-- Result of running a piece of the Rust code: a returned `Ok`, a
returned `Err` (propagated with the `?` operator), or a process abort
(`panic!`, or `.unwrap()` on an `Err`). -/
inductive Outcome (α : Type) where
  | ok (a : α)
  | err (e : OSSError)
  | panic
  deriving Repr, DecidableEq

/-- `Object` (src/object.rs): one record of a bucket listing.  The source
field `size: usize` is a non-negative machine integer, modelled as `Nat`
(its parser enforces the 64-bit bound, see `parseUsize`). -/
structure Object where
  key : String
  last_modified : String
  size : Nat
  etag : String
  type : String
  storage_class : String
  owner_id : String
  owner_display_name : String
  deriving Repr, DecidableEq

/-- `ListObjects` (src/object.rs): the decoded bucket listing.  The
source field `prefix` is rendered as `prefix_`. -/
structure ListObjects where
  bucket_name : String
  delimiter : String
  prefix_ : String
  marker : String
  max_keys : String
  is_truncated : Bool
  objects : List Object
  deriving Repr, DecidableEq

/-- The local mutable variables of the `list_object` decode loop
(src/object.rs lines 235-251): the bucket-level fields, the scratch
object fields, and the accumulated result vector. -/
structure DecState where
  bucket_name : String
  prefix_ : String
  marker : String
  max_keys : String
  delimiter : String
  is_truncated : Bool
  key : String
  last_modified : String
  etag : String
  type : String
  size : Nat
  storage_class : String
  owner_id : String
  owner_display_name : String
  result : List Object
  deriving Repr, DecidableEq

/-- The initial decoder state: every string empty, `is_truncated` false,
`size` zero, no accumulated objects. -/
def initState : DecState :=
  { bucket_name := "", prefix_ := "", marker := "", max_keys := "",
    delimiter := "", is_truncated := false, key := "", last_modified := "",
    etag := "", type := "", size := 0, storage_class := "", owner_id := "",
    owner_display_name := "", result := [] }

/-- Rust `str::parse::<usize>()` on a 64-bit target: an optional leading
plus sign, then one or more ASCII digits and nothing else, with the value
below `2 ^ 64`; any other input is a parse error.  Strings are processed
through their character list `String.data`. -/
def parseUsize (s : String) : Option Nat :=
  let cs := if s.data.head? = some '+' then s.data.tail else s.data
  if cs.isEmpty then none
  else if cs.all Char.isDigit then
    let v := cs.foldl (fun n d => 10 * n + (d.toNat - 48)) 0
    if v < 2 ^ 64 then some v else none
  else none

/-- Element names whose start-tag arm of the `list_object` event loop
calls `read_text` and stores the text (all named arms except `Contents`
and `Owner`, which capture nothing). -/
def isCaptured (n : String) : Bool :=
  n == "Name" || n == "Prefix" || n == "Marker" || n == "MaxKeys" ||
  n == "Delimiter" || n == "IsTruncated" || n == "Key" ||
  n == "LastModified" || n == "ETag" || n == "Type" || n == "Size" ||
  n == "StorageClass" || n == "ID" || n == "DisplayName"

/-- The assignment performed by the start-tag match arm for element `n`
with text content `t` (src/object.rs, the `Event::Start` arms of
`list_object`).  `IsTruncated` stores the case-sensitive comparison of
the text with the literal `"true"`.  The `Size` arm is
`size = reader.read_text(..)?.parse::<usize>().unwrap()`: a non-numeric
text makes the `.unwrap()` abort the process. -/
def applyStartField (st : DecState) (n t : String) : Outcome DecState :=
  if n == "Name" then Outcome.ok { st with bucket_name := t }
  else if n == "Prefix" then Outcome.ok { st with prefix_ := t }
  else if n == "Marker" then Outcome.ok { st with marker := t }
  else if n == "MaxKeys" then Outcome.ok { st with max_keys := t }
  else if n == "Delimiter" then Outcome.ok { st with delimiter := t }
  else if n == "IsTruncated" then Outcome.ok { st with is_truncated := t == "true" }
  else if n == "Key" then Outcome.ok { st with key := t }
  else if n == "LastModified" then Outcome.ok { st with last_modified := t }
  else if n == "ETag" then Outcome.ok { st with etag := t }
  else if n == "Type" then Outcome.ok { st with type := t }
  else if n == "Size" then
    match parseUsize t with
    | some v => Outcome.ok { st with size := v }
    | none => Outcome.panic
  else if n == "StorageClass" then Outcome.ok { st with storage_class := t }
  else if n == "ID" then Outcome.ok { st with owner_id := t }
  else if n == "DisplayName" then Outcome.ok { st with owner_display_name := t }
  else Outcome.ok st

/-- The clone of the scratch object record taken at an end tag
`Contents` (src/object.rs lines 283-292, `Object::new(..)`). -/
def currentObject (st : DecState) : Object :=
  { key := st.key, last_modified := st.last_modified, size := st.size,
    etag := st.etag, type := st.type, storage_class := st.storage_class,
    owner_id := st.owner_id, owner_display_name := st.owner_display_name }

/-- `result.push(object)` at an end tag `Contents`: the scratch record is
cloned and appended; the scratch fields are not reset. -/
def pushObject (st : DecState) : DecState :=
  { st with result := st.result ++ [currentObject st] }

/-- `ListObjects::new(bucket_name, delimiter, prefix, marker, max_keys,
is_truncated, result)` built at `Event::Eof` (src/object.rs lines
295-306). -/
def finishListing (st : DecState) : ListObjects :=
  { bucket_name := st.bucket_name, delimiter := st.delimiter,
    prefix_ := st.prefix_, marker := st.marker, max_keys := st.max_keys,
    is_truncated := st.is_truncated, objects := st.result }

/-- The event loop of `list_object` (src/object.rs lines 253-310) over
the token stream.  A start tag of a captured element reads its text
content up to the matching end tag (`read_text`; text-only content, a
mismatched or truncated element being a reader error returned through
`?`); the start tags `Contents`, `Owner` and unknown names capture
nothing; the end tag `Contents` pushes a clone of the scratch object;
other events fall through; the end of the stream (`Event::Eof`)
assembles the listing; a reader error from `read_event` runs the
`panic!` arm. -/
def listLoop (st : DecState) : List XmlToken → Outcome ListObjects
  | [] => Outcome.ok (finishListing st)
  | XmlToken.err :: _ => Outcome.panic
  | XmlToken.start n :: rest =>
    if isCaptured n then
      match rest with
      | XmlToken.text s :: XmlToken.endTag m :: rest2 =>
        if m == n then
          match applyStartField st n s with
          | Outcome.ok st2 => listLoop st2 rest2
          | Outcome.err e => Outcome.err e
          | Outcome.panic => Outcome.panic
        else Outcome.err OSSError.Qxml
      | XmlToken.endTag m :: rest2 =>
        if m == n then
          match applyStartField st n "" with
          | Outcome.ok st2 => listLoop st2 rest2
          | Outcome.err e => Outcome.err e
          | Outcome.panic => Outcome.panic
        else Outcome.err OSSError.Qxml
      | _ => Outcome.err OSSError.Qxml
    else listLoop st rest
  | XmlToken.endTag n :: rest =>
    if n == "Contents" then listLoop (pushObject st) rest
    else listLoop st rest
  | XmlToken.text _ :: rest => listLoop st rest

/-- A transport response whose body has already been taken as text and
tokenized by the quick_xml reader (external to the repository). -/
structure TokenResponse where
  status : Nat
  body : List XmlToken
  deriving Repr, DecidableEq

/-- `list_object` (src/object.rs lines 216-312): the response text is
taken and decoded by the event loop without any inspection of the HTTP
status — the definition does not read `status` at all, mirroring the
source, which never calls `resp.status()` in this operation. -/
def list_object (resp : TokenResponse) : Outcome ListObjects :=
  listLoop initState resp.body

/-- The empty bucket listing produced from the initial decoder state. -/
def emptyListing : ListObjects :=
  { bucket_name := "", delimiter := "", prefix_ := "", marker := "",
    max_keys := "", is_truncated := false, objects := [] }

/-- reqwest `StatusCode::is_success()`: the status class 2xx, that is
200 through 299. -/
def statusIsSuccess (s : Nat) : Bool :=
  decide (200 ≤ s) && decide (s ≤ 299)

/-- The message of the `GetError` built by `get_object`; the Rust
`format!` displays the status code (the http crate also appends the
canonical reason phrase after the number; the numeric code kept here is
what identifies the status). -/
def getObjectErrMsg (s : Nat) : String :=
  "can not get object, status code: " ++ toString s

/-- A raw transport response: HTTP status and body bytes. -/
structure ObjResponse where
  status : Nat
  body : List Nat
  deriving Repr, DecidableEq

/-- `get_object` interpretation of the transport response
(src/object.rs lines 335-342): on a success status the body bytes are
copied out unchanged and returned; otherwise an
`ObjectError::GetError { msg }` naming the status is returned and the
body is discarded. -/
def get_object (resp : ObjResponse) : Except OSSError (List Nat) :=
  if statusIsSuccess resp.status then Except.ok resp.body
  else Except.error (OSSError.Object (ObjectError.GetError (getObjectErrMsg resp.status)))

/-- The HTTP verb of a built request (`RequestType` in the crate's
`oss.rs`; only the verbs used by the embedded operations appear). -/
inductive RequestType where
  | Get
  | Put
  | Delete
  deriving Repr, DecidableEq

/-- The request handed to the transport: verb, object name, and the
resource/query map (a name with no value is a flag-style parameter). -/
structure ObjRequest where
  verb : RequestType
  object_name : String
  resources : List (String × Option String)
  deriving Repr, DecidableEq

/-- The request issued by `get_object_acl` (src/object.rs lines
349-352): a Get on the object with the single flag-style resource
`acl` (`params.insert("acl", None)`). -/
def aclRequest (name : String) : ObjRequest :=
  { verb := RequestType.Get, object_name := name,
    resources := [("acl", none)] }

/-- The scan loop of `get_object_acl` (src/object.rs lines 357-366)
over the ACL response token stream: every `Grant` start tag overwrites
the `grant` variable with the element's text; the end of the stream
returns the accumulated value; a reader error from `read_event` runs
the `panic!` arm; all other events fall through. -/
def aclLoop (grant : String) : List XmlToken → Outcome String
  | [] => Outcome.ok grant
  | XmlToken.err :: _ => Outcome.panic
  | XmlToken.start n :: rest =>
    if n == "Grant" then
      match rest with
      | XmlToken.text s :: XmlToken.endTag m :: rest2 =>
        if m == n then aclLoop s rest2 else Outcome.err OSSError.Qxml
      | XmlToken.endTag m :: rest2 =>
        if m == n then aclLoop "" rest2 else Outcome.err OSSError.Qxml
      | _ => Outcome.err OSSError.Qxml
    else aclLoop grant rest
  | XmlToken.endTag _ :: rest => aclLoop grant rest
  | XmlToken.text _ :: rest => aclLoop grant rest

/-- `get_object_acl` (src/object.rs lines 345-369): issue the inner Get
with the fixed `acl` resource through `get_object` (its error, for a
non-2xx status, propagates with `?`), UTF-8-decode and tokenize the
returned bytes (`String::from_utf8` plus the quick_xml reader, both
external, modelled together by the `tokenize` parameter whose error
also propagates), then scan the tokens with the `Grant` loop. -/
def get_object_acl (send : ObjRequest → ObjResponse)
    (tokenize : List Nat → Except OSSError (List XmlToken))
    (name : String) : Outcome String :=
  match get_object (send (aclRequest name)) with
  | Except.error e => Outcome.err e
  | Except.ok bytes =>
    match tokenize bytes with
    | Except.error e => Outcome.err e
    | Except.ok toks => aclLoop "" toks

/-- Header-name characters accepted by the http crate's
`HeaderName::from_bytes`: the RFC 7230 token characters — ASCII letters
and digits and the punctuation excl / hash / dollar / percent /
ampersand / apostrophe / star / plus / minus / dot / caret / underscore
/ backquote / bar / tilde (codepoints 39 and 96 are the apostrophe and
the backquote). -/
def isHeaderNameChar (c : Char) : Bool :=
  c.isAlpha || c.isDigit || c == '!' || c == '#' || c == '$' ||
  c == '%' || c == '&' || c.toNat == 39 || c == '*' || c == '+' ||
  c == '-' || c == '.' || c == '^' || c == '_' || c.toNat == 96 ||
  c == '|' || c == '~'

/-- ASCII lower-casing of a string, character by character (the
normalization applied by the http crate to header names). -/
def lowerStr (s : String) : String :=
  String.mk (s.data.map Char.toLower)

/-- `HeaderName::from_bytes` (http crate): a non-empty name of token
characters is accepted and normalized to ASCII lower case (a
`HeaderName` is always lower case); anything else is an
`InvalidHeaderName` error. -/
def headerNameFromBytes (s : String) : Option String :=
  if !s.data.isEmpty && s.data.all isHeaderNameChar then some (lowerStr s)
  else none

/-- `val.parse::<HeaderValue>()` (http crate, `from_str` via
`from_bytes`): every byte must be a horizontal tab or at least 32 and
different from 127; on a UTF-8 `str` this holds exactly when every char
is a tab or has codepoint at least 32 and different from 127 (chars at
128 and above encode to bytes at 128 and above, which are accepted
obs-text bytes). -/
def headerValueFromStr (s : String) : Option String :=
  if s.data.all (fun c => c == '\t' || (decide (32 ≤ c.toNat) && decide (c.toNat ≠ 127)))
  then some s else none

/-- `HeaderMap::insert` (http crate): replaces the value when the name
is already present, otherwise appends the pair. -/
def headerMapInsert (m : List (String × String)) (k v : String) :
    List (String × String) :=
  if m.any (fun q => q.fst == k) then
    m.map (fun q => if q.fst == k then (k, v) else q)
  else m ++ [(k, v)]

/-- The loop of `to_headers` (src/utils.rs lines 22-33): for each pair,
convert the name with `HeaderName::from_bytes(key.as_bytes())?` and the
value with `val.parse()?` — a failure of either propagates immediately
through `?` — and insert the converted pair into the accumulated header
map. -/
def to_headers_loop (acc : List (String × String)) :
    List (String × String) → Except OSSError (List (String × String))
  | [] => Except.ok acc
  | (k, v) :: rest =>
    match headerNameFromBytes k with
    | none => Except.error OSSError.InvalidHeaderName
    | some nm =>
      match headerValueFromStr v with
      | none => Except.error OSSError.InvalidHeaderValue
      | some vv => to_headers_loop (headerMapInsert acc nm vv) rest

/-- `to_headers` (src/utils.rs): the caller's HashMap is modelled as the
list of its entries in iteration order (a HashMap has no duplicate
keys, but keys differing only in ASCII case are distinct HashMap
keys). -/
def to_headers (h : List (String × String)) :
    Except OSSError (List (String × String)) :=
  to_headers_loop [] h

/-- A header entry both of whose components convert to wire-safe form:
the name is accepted by `HeaderName::from_bytes` and the value by the
`HeaderValue` parser. -/
def wireSafe (p : String × String) : Bool :=
  (headerNameFromBytes p.fst).isSome && (headerValueFromStr p.snd).isSome

/-- Token body for claim C1: a listing whose `Contents` block carries
`Size` text `"abc"`. -/
def malformedSizeBody : List XmlToken :=
  [XmlToken.start "ListBucketResult",
   XmlToken.start "Contents",
   XmlToken.start "Key", XmlToken.text "a.txt", XmlToken.endTag "Key",
   XmlToken.start "Size", XmlToken.text "abc", XmlToken.endTag "Size",
   XmlToken.endTag "Contents",
   XmlToken.endTag "ListBucketResult"]

/-- Claim C1 (code bug): on a `Contents` block whose `Size` text is
`"abc"`, the source runs
`size = reader.read_text(..)?.parse::<usize>().unwrap()` and the
`.unwrap()` aborts the process.  The decode therefore panics instead of
returning the typed `MalformedListing` error the claim states (and it
also does not substitute zero — no listing value is produced at all). -/
theorem size_unwrap_panics :
    list_object { status := 200, body := malformedSizeBody } = Outcome.panic := by
  decide

/-- Token body for claim C2: the token reader reports a decode error
while the listing is being read. -/
def readErrorBody : List XmlToken :=
  [XmlToken.start "ListBucketResult", XmlToken.err]

/-- Claim C2 (code bug): when the underlying token reader reports a
decode error, `read_event` returns `Err(e)` and the source runs the arm
`Err(e) => panic!(..)` — the process aborts instead of a typed
`MalformedListing` error being returned to the caller as the claim
states. -/
theorem read_event_error_panics :
    list_object { status := 200, body := readErrorBody } = Outcome.panic := by
  decide

/-- Token body for claim C3: bucket name `"b1"`, `IsTruncated` text
`"true"`, and two `Contents` blocks with keys `"a.txt"` (Size 10) and
`"b.txt"` (Size 20), in that document order. -/
def roundTripBody : List XmlToken :=
  [XmlToken.start "ListBucketResult",
   XmlToken.start "Name", XmlToken.text "b1", XmlToken.endTag "Name",
   XmlToken.start "IsTruncated", XmlToken.text "true", XmlToken.endTag "IsTruncated",
   XmlToken.start "Contents",
   XmlToken.start "Key", XmlToken.text "a.txt", XmlToken.endTag "Key",
   XmlToken.start "Size", XmlToken.text "10", XmlToken.endTag "Size",
   XmlToken.endTag "Contents",
   XmlToken.start "Contents",
   XmlToken.start "Key", XmlToken.text "b.txt", XmlToken.endTag "Key",
   XmlToken.start "Size", XmlToken.text "20", XmlToken.endTag "Size",
   XmlToken.endTag "Contents",
   XmlToken.endTag "ListBucketResult"]

/-- Claim C3 (confirmed): decoding the round-trip document yields a
listing with `bucket_name = "b1"`, `is_truncated = true`, and exactly
the two objects `a.txt` (size 10) and `b.txt` (size 20) in document
order; the remaining fields keep their initial empty values. -/
theorem listing_round_trip :
    list_object { status := 200, body := roundTripBody } =
      Outcome.ok
        { bucket_name := "b1", delimiter := "", prefix_ := "", marker := "",
          max_keys := "", is_truncated := true,
          objects :=
            [{ key := "a.txt", last_modified := "", size := 10, etag := "",
               type := "", storage_class := "", owner_id := "",
               owner_display_name := "" },
             { key := "b.txt", last_modified := "", size := 20, etag := "",
               type := "", storage_class := "", owner_id := "",
               owner_display_name := "" }] } := by
  decide

/-- `IsTruncated` element with text `"true"`. -/
def truncTrueBody : List XmlToken :=
  [XmlToken.start "IsTruncated", XmlToken.text "true", XmlToken.endTag "IsTruncated"]

/-- `IsTruncated` element with text `"TRUE"`. -/
def truncUpperBody : List XmlToken :=
  [XmlToken.start "IsTruncated", XmlToken.text "TRUE", XmlToken.endTag "IsTruncated"]

/-- `IsTruncated` element with text `"1"`. -/
def truncOneBody : List XmlToken :=
  [XmlToken.start "IsTruncated", XmlToken.text "1", XmlToken.endTag "IsTruncated"]

/-- `IsTruncated` element with text `"false"`. -/
def truncFalseBody : List XmlToken :=
  [XmlToken.start "IsTruncated", XmlToken.text "false", XmlToken.endTag "IsTruncated"]

/-- Claim C4 (confirmed): processing an `IsTruncated` element with any
text `t`, from any decoder state, stores exactly the case-sensitive
comparison `t == "true"` in `is_truncated` and changes nothing else; in
particular the texts `"TRUE"`, `"1"` and `"false"` yield `false`, and
only the literal `"true"` yields `true`. -/
theorem is_truncated_literal :
    (∀ (st : DecState) (t : String) (rest : List XmlToken),
      listLoop st (XmlToken.start "IsTruncated" :: XmlToken.text t ::
          XmlToken.endTag "IsTruncated" :: rest) =
        listLoop { st with is_truncated := t == "true" } rest) ∧
    list_object { status := 200, body := truncTrueBody } =
      Outcome.ok { emptyListing with is_truncated := true } ∧
    list_object { status := 200, body := truncUpperBody } = Outcome.ok emptyListing ∧
    list_object { status := 200, body := truncOneBody } = Outcome.ok emptyListing ∧
    list_object { status := 200, body := truncFalseBody } = Outcome.ok emptyListing :=
  ⟨fun st t rest => rfl, by decide, by decide, by decide, by decide⟩

/-- Token body for claim C5: the document sets bucket name `"b1"`, and a
later `Contents` block contains a nested `Name` element with text
`"evil"`. -/
def nameInContentsBody : List XmlToken :=
  [XmlToken.start "ListBucketResult",
   XmlToken.start "Name", XmlToken.text "b1", XmlToken.endTag "Name",
   XmlToken.start "Contents",
   XmlToken.start "Name", XmlToken.text "evil", XmlToken.endTag "Name",
   XmlToken.start "Key", XmlToken.text "k", XmlToken.endTag "Key",
   XmlToken.endTag "Contents",
   XmlToken.endTag "ListBucketResult"]

/-- Claim C5 counterexample: a `Name` element nested inside a `Contents`
block does overwrite the bucket-level field — the decoded listing has
`bucket_name = "evil"` (the value from inside `Contents`), not the
`"b1"` captured before the block, refuting the claim that elements seen
after a `Contents` start tag never overwrite bucket-level fields. -/
theorem bucket_name_overwritten_in_contents :
    list_object { status := 200, body := nameInContentsBody } =
      Outcome.ok
        { bucket_name := "evil", delimiter := "", prefix_ := "", marker := "",
          max_keys := "", is_truncated := false,
          objects :=
            [{ key := "k", last_modified := "", size := 0, etag := "",
               type := "", storage_class := "", owner_id := "",
               owner_display_name := "" }] } ∧
    "evil" ≠ "b1" := by
  constructor
  · decide
  · decide

/-- Claim C5 as amended (the decoder tracks no `Contents` scope): a
start tag carrying a bucket-level field name (`Name`, `Prefix`,
`Marker`, `MaxKeys`, `Delimiter`, `IsTruncated`) is captured into the
corresponding bucket-level field wherever it occurs — the transition is
the same from every decoder state, so such an element inside a
`Contents` block also overwrites the bucket-level field, as the
concrete document `nameInContentsBody` shows. -/
theorem bucket_fields_unscoped :
    (∀ (st : DecState) (t : String) (rest : List XmlToken),
      listLoop st (XmlToken.start "Name" :: XmlToken.text t ::
          XmlToken.endTag "Name" :: rest) =
        listLoop { st with bucket_name := t } rest) ∧
    (∀ (st : DecState) (t : String) (rest : List XmlToken),
      listLoop st (XmlToken.start "Prefix" :: XmlToken.text t ::
          XmlToken.endTag "Prefix" :: rest) =
        listLoop { st with prefix_ := t } rest) ∧
    (∀ (st : DecState) (t : String) (rest : List XmlToken),
      listLoop st (XmlToken.start "Marker" :: XmlToken.text t ::
          XmlToken.endTag "Marker" :: rest) =
        listLoop { st with marker := t } rest) ∧
    (∀ (st : DecState) (t : String) (rest : List XmlToken),
      listLoop st (XmlToken.start "MaxKeys" :: XmlToken.text t ::
          XmlToken.endTag "MaxKeys" :: rest) =
        listLoop { st with max_keys := t } rest) ∧
    (∀ (st : DecState) (t : String) (rest : List XmlToken),
      listLoop st (XmlToken.start "Delimiter" :: XmlToken.text t ::
          XmlToken.endTag "Delimiter" :: rest) =
        listLoop { st with delimiter := t } rest) ∧
    (∀ (st : DecState) (t : String) (rest : List XmlToken),
      listLoop st (XmlToken.start "IsTruncated" :: XmlToken.text t ::
          XmlToken.endTag "IsTruncated" :: rest) =
        listLoop { st with is_truncated := t == "true" } rest) ∧
    (∃ lo, list_object { status := 200, body := nameInContentsBody } =
        Outcome.ok lo ∧ lo.bucket_name = "evil") :=
  ⟨fun st t rest => rfl, fun st t rest => rfl, fun st t rest => rfl,
   fun st t rest => rfl, fun st t rest => rfl, fun st t rest => rfl,
   ⟨{ bucket_name := "evil", delimiter := "", prefix_ := "", marker := "",
      max_keys := "", is_truncated := false,
      objects := [{ key := "k", last_modified := "", size := 0, etag := "",
                    type := "", storage_class := "", owner_id := "",
                    owner_display_name := "" }] },
    by decide, by decide⟩⟩

/-- Small valid listing body used with an error status. -/
def errStatusBody : List XmlToken :=
  [XmlToken.start "Name", XmlToken.text "b", XmlToken.endTag "Name"]

/-- Claim C8 (confirmed): `list_object` never inspects the HTTP status —
the decoded result is the same for any two statuses over the same body,
the body is always handed to the listing decoder, and in particular a
status-500 response with a well-formed body still decodes to a
listing. -/
theorem list_object_ignores_status :
    (∀ (s1 s2 : Nat) (body : List XmlToken),
      list_object { status := s1, body := body } =
        list_object { status := s2, body := body }) ∧
    (∀ resp : TokenResponse, list_object resp = listLoop initState resp.body) ∧
    list_object { status := 500, body := errStatusBody } =
      Outcome.ok { emptyListing with bucket_name := "b" } :=
  ⟨fun s1 s2 body => rfl, fun resp => rfl, by decide⟩

/-- Claim C6 (confirmed): `get_object` returns exactly the body bytes
unmodified when the response status is 2xx, and otherwise returns the
`GetError` naming the response status and never the body. -/
theorem get_object_status_gate (s : Nat) (body : List Nat) :
    get_object { status := s, body := body } =
      if 200 ≤ s ∧ s ≤ 299 then Except.ok body
      else Except.error (OSSError.Object (ObjectError.GetError (getObjectErrMsg s))) := by
  by_cases h1 : 200 ≤ s
  · by_cases h2 : s ≤ 299 <;> simp [get_object, statusIsSuccess, h1, h2]
  · simp [get_object, statusIsSuccess, h1]

/-- Token rendering of a `Grant` element with text content `t`. -/
def grantElem (t : String) : List XmlToken :=
  [XmlToken.start "Grant", XmlToken.text t, XmlToken.endTag "Grant"]

/-- Token rendering of a sequence of `Grant` elements, one per text. -/
def grantStream : List String → List XmlToken
  | [] => []
  | t :: ts => grantElem t ++ grantStream ts

/-- A transport that answers every request with status 200 and an empty
byte body (the token content is supplied by the tokenizer model). -/
def aclSendTwoGrants : ObjRequest → ObjResponse :=
  fun _ => { status := 200, body := [] }

/-- Tokenizer model producing an ACL document with two `Grant`
elements, texts `"first-grant"` then `"second-grant"`. -/
def aclTokenizeTwoGrants : List Nat → Except OSSError (List XmlToken) :=
  fun _ => Except.ok (grantStream ["first-grant", "second-grant"])

/-- Claim C7 counterexample: on a response with two `Grant` elements,
`get_object_acl` returns the text of the second (last) one — each
`Grant` start tag overwrites the `grant` variable — refuting the
claim that the first occurrence wins. -/
theorem acl_second_grant_wins :
    get_object_acl aclSendTwoGrants aclTokenizeTwoGrants "obj" =
      Outcome.ok "second-grant" ∧
    "second-grant" ≠ "first-grant" := by
  constructor
  · decide
  · decide

/-- `aclLoop` over a pure sequence of `Grant` elements returns the last
text, defaulting to the accumulator for the empty sequence. -/
theorem aclLoop_grantStream (texts : List String) (g0 : String) :
    aclLoop g0 (grantStream texts) = Outcome.ok (texts.getLastD g0) := by
  induction texts generalizing g0 with
  | nil => rfl
  | cons t ts ih =>
    rw [List.getLastD_cons]
    simpa [grantStream, grantElem, aclLoop] using ih t

/-- Claim C7 as amended: `get_object_acl` issues a Get whose resources
are the single flag-style `acl` parameter — its result depends on the
transport only through the response to that request — and it extracts
the `Grant` text with the last occurrence winning: on a success
response tokenizing to a sequence of `Grant` elements the returned
string is the text of the LAST `Grant` element, with no validation
that exactly one exists. -/
theorem get_object_acl_last_grant :
    (∀ (name : String) (send send2 : ObjRequest → ObjResponse)
        (tokenize : List Nat → Except OSSError (List XmlToken)),
      send (aclRequest name) = send2 (aclRequest name) →
      get_object_acl send tokenize name = get_object_acl send2 tokenize name) ∧
    (∀ (name : String) (send : ObjRequest → ObjResponse)
        (tokenize : List Nat → Except OSSError (List XmlToken))
        (texts : List String) (g : String),
      texts.getLast? = some g →
      statusIsSuccess (send (aclRequest name)).status = true →
      tokenize (send (aclRequest name)).body =
        Except.ok (grantStream texts) →
      get_object_acl send tokenize name = Outcome.ok g) := by
  constructor
  · intro name send send2 tokenize h
    unfold get_object_acl
    rw [h]
  · intro name send tokenize texts g hg hs ht
    unfold get_object_acl get_object
    rw [hs]
    simp only [if_true, ht, aclLoop_grantStream]
    have : texts.getLastD "" = g := by
      rw [List.getLastD_eq_getLast?, hg]
      rfl
    rw [this]

/-- Transport for the witness of the amended claim C7: status 200,
empty byte body. -/
def aclSendLastWitness : ObjRequest → ObjResponse :=
  fun _ => { status := 200, body := [] }

/-- Tokenizer for the witness of the amended claim C7: three `Grant`
elements with texts g1, g2, g3. -/
def aclTokenizeLastWitness : List Nat → Except OSSError (List XmlToken) :=
  fun _ => Except.ok (grantStream ["g1", "g2", "g3"])

/-- Witness for the amended claim C7, at a concrete transport with
three `Grant` elements: both conjuncts applied with their hypotheses
discharged by computation. -/
theorem get_object_acl_last_grant_witness :
    get_object_acl aclSendLastWitness aclTokenizeLastWitness "obj" =
      Outcome.ok "g3" ∧
    get_object_acl aclSendLastWitness aclTokenizeLastWitness "obj" =
      get_object_acl aclSendLastWitness aclTokenizeLastWitness "obj" :=
  ⟨get_object_acl_last_grant.2 "obj" aclSendLastWitness aclTokenizeLastWitness
      ["g1", "g2", "g3"] "g3" (by decide) (by decide) rfl,
   get_object_acl_last_grant.1 "obj" aclSendLastWitness aclSendLastWitness
      aclTokenizeLastWitness rfl⟩

/-- The Grant scan leaves its accumulator untouched on a token stream
containing no reader error and no `Grant` start tag. -/
theorem aclLoop_no_grant_aux (toks : List XmlToken) (g : String)
    (h : ∀ t ∈ toks, t ≠ XmlToken.err ∧ t ≠ XmlToken.start "Grant") :
    aclLoop g toks = Outcome.ok g := by
  induction toks with
  | nil => rfl
  | cons t ts ih =>
    have h1 := h t (List.mem_cons_self t ts)
    have h2 : ∀ u ∈ ts, u ≠ XmlToken.err ∧ u ≠ XmlToken.start "Grant" :=
      fun u hu => h u (List.mem_cons_of_mem t hu)
    cases t with
    | err => exact absurd rfl h1.1
    | start n =>
      have hn : (n == "Grant") = false := by
        apply beq_eq_false_iff_ne.mpr
        intro he
        exact h1.2 (by rw [he])
      rw [aclLoop.eq_def]
      simpa [hn] using ih h2
    | endTag n => simpa [aclLoop] using ih h2
    | text s => simpa [aclLoop] using ih h2

/-- Claim C10 (confirmed): when the ACL fetch succeeds and the response
tokenizes to a well-formed stream containing no `Grant` element at all,
`get_object_acl` succeeds and returns the empty string — the `grant`
variable keeps its initial value `String::new()`. -/
theorem get_object_acl_no_grant (send : ObjRequest → ObjResponse)
    (tokenize : List Nat → Except OSSError (List XmlToken))
    (name : String) (toks : List XmlToken)
    (hs : statusIsSuccess (send (aclRequest name)).status = true)
    (ht : tokenize (send (aclRequest name)).body = Except.ok toks)
    (hng : ∀ t ∈ toks, t ≠ XmlToken.err ∧ t ≠ XmlToken.start "Grant") :
    get_object_acl send tokenize name = Outcome.ok "" := by
  unfold get_object_acl get_object
  rw [hs]
  simp only [if_true, ht]
  exact aclLoop_no_grant_aux toks "" hng

/-- Ambient transport for the claim C10 witness: status 200, empty byte
body. -/
def aclSendNoGrant : ObjRequest → ObjResponse :=
  fun _ => { status := 200, body := [] }

/-- Grant-free ACL token stream for the claim C10 witness. -/
def noGrantToks : List XmlToken :=
  [XmlToken.start "AccessControlPolicy",
   XmlToken.start "Owner",
   XmlToken.start "ID", XmlToken.text "1234", XmlToken.endTag "ID",
   XmlToken.endTag "Owner",
   XmlToken.endTag "AccessControlPolicy"]

/-- Tokenizer for the claim C10 witness, producing the Grant-free
stream. -/
def aclTokenizeNoGrant : List Nat → Except OSSError (List XmlToken) :=
  fun _ => Except.ok noGrantToks

/-- Witness for claim C10 at a concrete Grant-free ACL document: the
theorem applied with all hypotheses discharged by computation. -/
theorem get_object_acl_no_grant_witness :
    get_object_acl aclSendNoGrant aclTokenizeNoGrant "obj" = Outcome.ok "" :=
  get_object_acl_no_grant aclSendNoGrant aclTokenizeNoGrant "obj" noGrantToks
    (by decide) rfl (by decide)

/-- A `headerNameFromBytes` that converts at all yields the lower-cased
name. -/
theorem headerNameFromBytes_isSome {k : String}
    (h : (headerNameFromBytes k).isSome = true) :
    headerNameFromBytes k = some (lowerStr k) := by
  unfold headerNameFromBytes at h ⊢
  by_cases hc : (!k.data.isEmpty && k.data.all isHeaderNameChar) = true
  · rw [if_pos hc]
  · rw [if_neg hc] at h
    simp at h

/-- A `headerValueFromStr` that converts at all yields the value
unchanged. -/
theorem headerValueFromStr_isSome {v : String}
    (h : (headerValueFromStr v).isSome = true) :
    headerValueFromStr v = some v := by
  unfold headerValueFromStr at h ⊢
  by_cases hc : (v.data.all fun c =>
      c == '\t' || (decide (32 ≤ c.toNat) && decide (c.toNat ≠ 127))) = true
  · rw [if_pos hc]
  · rw [if_neg hc] at h
    simp at h

/-- `HeaderMap::insert` makes the inserted pair a member of the map. -/
theorem mem_headerMapInsert_self (m : List (String × String)) (k v : String) :
    (k, v) ∈ headerMapInsert m k v := by
  unfold headerMapInsert
  by_cases h : (m.any fun q => q.fst == k) = true
  · rw [if_pos h]
    simp only [List.any_eq_true] at h
    obtain ⟨q, hq, hqk⟩ := h
    exact List.mem_map.mpr ⟨q, hq, by simp [hqk]⟩
  · rw [if_neg h]
    exact List.mem_append.mpr (Or.inr (List.mem_cons_self _ _))

/-- `HeaderMap::insert` keeps every pair whose name differs from the
inserted one. -/
theorem mem_headerMapInsert_of_ne {m : List (String × String)}
    {q : String × String} (hq : q ∈ m) {k v : String} (hne : q.fst ≠ k) :
    q ∈ headerMapInsert m k v := by
  unfold headerMapInsert
  by_cases h : (m.any fun r => r.fst == k) = true
  · rw [if_pos h]
    exact List.mem_map.mpr ⟨q, hq, by simp [beq_eq_false_iff_ne.mpr hne]⟩
  · rw [if_neg h]
    exact List.mem_append.mpr (Or.inl hq)

/-- A header list containing an entry that fails conversion makes the
`to_headers` loop return an error from any accumulator. -/
theorem to_headers_loop_err (h : List (String × String)) :
    ∀ acc, (∃ p ∈ h, wireSafe p = false) →
      ∃ e, to_headers_loop acc h = Except.error e := by
  induction h with
  | nil =>
    intro acc hex
    obtain ⟨p, hp, _⟩ := hex
    exact absurd hp (List.not_mem_nil p)
  | cons p t ih =>
    intro acc hex
    obtain ⟨k, v⟩ := p
    cases hnk : headerNameFromBytes k with
    | none => exact ⟨OSSError.InvalidHeaderName, by simp [to_headers_loop, hnk]⟩
    | some nm =>
      cases hvv : headerValueFromStr v with
      | none =>
        exact ⟨OSSError.InvalidHeaderValue, by simp [to_headers_loop, hnk, hvv]⟩
      | some vv =>
        have hw : wireSafe (k, v) = true := by
          simp [wireSafe, hnk, hvv]
        have hext : ∃ q ∈ t, wireSafe q = false := by
          obtain ⟨q, hq, hqf⟩ := hex
          rcases List.mem_cons.mp hq with rfl | hq2
          · rw [hw] at hqf
            cases hqf
          · exact ⟨q, hq2, hqf⟩
        obtain ⟨e, he⟩ := ih (headerMapInsert acc nm vv) hext
        exact ⟨e, by simp [to_headers_loop, hnk, hvv, he]⟩

/-- When every entry of the header list converts, the `to_headers` loop
succeeds; every converted entry of the list is in the result (provided
the lower-cased names are distinct), and every accumulator entry whose
name is not re-inserted survives. -/
theorem to_headers_loop_complete (h : List (String × String)) :
    ∀ acc, (∀ p ∈ h, wireSafe p = true) →
      (h.map (fun p => lowerStr p.fst)).Nodup →
      ∃ m, to_headers_loop acc h = Except.ok m ∧
        (∀ p ∈ h, (lowerStr p.fst, p.snd) ∈ m) ∧
        (∀ q ∈ acc, q.fst ∉ h.map (fun p => lowerStr p.fst) → q ∈ m) := by
  induction h with
  | nil =>
    intro acc _ _
    exact ⟨acc, rfl, by simp, fun q hq _ => hq⟩
  | cons p t ih =>
    intro acc hsafe hnd
    obtain ⟨k, v⟩ := p
    have hw : wireSafe (k, v) = true := hsafe (k, v) (List.mem_cons_self _ _)
    have hw2 : (headerNameFromBytes k).isSome = true ∧
        (headerValueFromStr v).isSome = true := by
      simpa [wireSafe, Bool.and_eq_true] using hw
    have hnk := headerNameFromBytes_isSome hw2.1
    have hvv := headerValueFromStr_isSome hw2.2
    simp only [List.map_cons, List.nodup_cons] at hnd
    obtain ⟨m, hm, hmem, hacc⟩ :=
      ih (headerMapInsert acc (lowerStr k) v)
        (fun q hq => hsafe q (List.mem_cons_of_mem _ hq)) hnd.2
    refine ⟨m, by simp [to_headers_loop, hnk, hvv, hm], ?_, ?_⟩
    · intro q hq
      rcases List.mem_cons.mp hq with rfl | hq2
      · exact hacc (lowerStr k, v) (mem_headerMapInsert_self acc (lowerStr k) v) hnd.1
      · exact hmem q hq2
    · intro q hq hqn
      simp only [List.map_cons, List.mem_cons, not_or] at hqn
      exact hacc q (mem_headerMapInsert_of_ne hq hqn.1) hqn.2

/-- Claim C9 as amended: a header map with any entry that cannot be
represented as a wire-safe HTTP header makes `to_headers` return an
error to the caller (the offending entry is never silently dropped);
when every entry is wire-safe AND no two supplied names coincide after
ASCII lower-casing, the returned header map contains every supplied
name/value pair, with the name in its lower-cased wire form.  (Without
the lower-case-distinctness condition the claim fails: names differing
only in case collide in the header map and the later value replaces the
earlier one, see the counterexample.) -/
theorem to_headers_wire_safe (h : List (String × String)) :
    ((∃ p ∈ h, wireSafe p = false) → ∃ e, to_headers h = Except.error e) ∧
    ((∀ p ∈ h, wireSafe p = true) →
      (h.map (fun p => lowerStr p.fst)).Nodup →
      ∃ m, to_headers h = Except.ok m ∧
        ∀ p ∈ h, (lowerStr p.fst, p.snd) ∈ m) := by
  constructor
  · intro hex
    exact to_headers_loop_err h [] hex
  · intro hsafe hnd
    obtain ⟨m, hm, hmem, _⟩ := to_headers_loop_complete h [] hsafe hnd
    exact ⟨m, hm, hmem⟩

/-- Witness for the amended claim C9: both halves applied at concrete
header lists — a name with a space fails conversion and yields an
error; a wire-safe list is converted completely. -/
theorem to_headers_wire_safe_witness :
    (∃ e, to_headers [("bad name", "v")] = Except.error e) ∧
    (∃ m, to_headers [("X-OSS-Meta-A", "1"), ("Content-Type", "text/plain")] =
        Except.ok m ∧
      ∀ p ∈ [("X-OSS-Meta-A", "1"), ("Content-Type", "text/plain")],
        (lowerStr p.fst, p.snd) ∈ m) :=
  ⟨(to_headers_wire_safe [("bad name", "v")]).1
      ⟨("bad name", "v"), by decide, by decide⟩,
   (to_headers_wire_safe [("X-OSS-Meta-A", "1"), ("Content-Type", "text/plain")]).2
      (by decide) (by decide)⟩

/-- Claim C9 counterexample: the entries `("A", "x")` and `("a", "y")`
are distinct HashMap keys and both wire-safe, yet `to_headers` returns
a map holding only `("a", "y")` — the names collide after the http
crate's lower-casing and `HeaderMap::insert` replaces the value, so the
supplied pair with value `"x"` is dropped (no pair of the output
carries `"x"` at all), refuting the claim that the returned map
contains every supplied name/value pair. -/
theorem to_headers_case_collision :
    wireSafe ("A", "x") = true ∧ wireSafe ("a", "y") = true ∧
    to_headers [("A", "x"), ("a", "y")] = Except.ok [("a", "y")] ∧
    "y" ≠ "x" := by
  refine ⟨by decide, by decide, by rfl, by decide⟩
